import Mathlib

/-!
Shallow embedding of the UTXO transaction validator in
`src/src/transaction-validator.ts` (class `TransactionValidator`), together
with the data model its imports provide.  Only `transaction-validator.ts`
is present in the sources; the types (`types.ts`), the error constructors
(`errors.ts`), the pool (`utxo-pool.ts`) and the signature primitive
(`utils/crypto.ts`) are modelled from the spec's data-model and
external-interface sections.

The embedding keeps the source's control flow exactly: in the source, the
whole of the amount, balance, signature and double-spend logic is nested
inside the first `transaction.inputs.forEach(input => ...)` callback, so
every one of those checks re-runs once per transaction input (and never
runs when the transaction has no inputs).  The per-input state is the
accumulated error list together with the `seenUTXOs` set (modelled as the
list of keys added so far; only membership is ever queried).
-/

/-- Modelled from the spec: UTXO identifier `(sourceTxId, outputIndex)`
with a non-negative output index (`types.ts` is not in the sources). -/
structure UTXOId where
  txId : String
  outputIndex : Nat
deriving DecidableEq

/-- Modelled from the spec: unspent output record `{id, amount, recipient}`
owned by the pool. -/
structure UTXO where
  id : String
  amount : Int
  recipient : String
deriving DecidableEq

/-- Modelled from the spec: transaction input `{utxoId, owner, signature}`. -/
structure TransactionInput where
  utxoId : UTXOId
  owner : String
  signature : String
deriving DecidableEq

/-- Modelled from the spec: transaction output `{amount, recipient}`. -/
structure TransactionOutput where
  amount : Int
  recipient : String
deriving DecidableEq

/-- Modelled from the spec: transaction `{id, inputs, outputs, timestamp}`. -/
structure Transaction where
  id : String
  inputs : List TransactionInput
  outputs : List TransactionOutput
  timestamp : Int
deriving DecidableEq

/-- Modelled from the spec: the closed enumeration of error kinds
(`errors.ts` is not in the sources). -/
inductive ValidationErrorKind where
  | UTXO_NOT_FOUND
  | NEGATIVE_AMOUNT
  | AMOUNT_MISMATCH
  | INVALID_SIGNATURE
  | DOUBLE_SPENDING
deriving DecidableEq

/-- Modelled from the spec: a structured error `{kind, message}`. -/
structure ValidationError where
  kind : ValidationErrorKind
  message : String
deriving DecidableEq

/-- Modelled from the spec: `createValidationError` of `errors.ts`. -/
def createValidationError (kind : ValidationErrorKind) (message : String) :
    ValidationError :=
  ⟨kind, message⟩

/-- Modelled from the spec: the validation verdict `{valid, errors}`. -/
structure ValidationResult where
  valid : Bool
  errors : List ValidationError
deriving DecidableEq

/-- Modelled from the spec: the pool's point lookup
`getUTXO(sourceTxId, outputIndex) -> UTXO record | absent`
(`utxo-pool.ts` is not in the sources).  A pool snapshot is the lookup
function itself. -/
def UTXOPool : Type :=
  String → Nat → Option UTXO

/-- Modelled from the spec: the external signature primitive
`verify(payload, signature, verificationKey) -> boolean`
(`utils/crypto.ts` is not in the sources); it is deterministic for
identical inputs, hence a function. -/
def VerifyFn : Type :=
  String → String → String → Bool

/-- JSON rendering of a string (the quoting `JSON.stringify` performs;
escaping of special characters inside the string is not modelled, the
identifiers in play are plain). -/
def jsonString (s : String) : String :=
  "\"" ++ s ++ "\""

/-- JSON rendering of a `utxoId` object, fields in declaration order as
`JSON.stringify` emits them. -/
def jsonUTXOId (u : UTXOId) : String :=
  "\x7b\"txId\":" ++ jsonString u.txId ++ ",\"outputIndex\":" ++
    toString u.outputIndex ++ "\x7d"

/-- JSON rendering of one element of the `inputs` array of the unsigned
transaction object: the input reduced to `{utxoId, owner}`. -/
def jsonUnsignedInput (i : TransactionInput) : String :=
  "\x7b\"utxoId\":" ++ jsonUTXOId i.utxoId ++ ",\"owner\":" ++
    jsonString i.owner ++ "\x7d"

/-- JSON rendering of a transaction output `{amount, recipient}`. -/
def jsonOutput (o : TransactionOutput) : String :=
  "\x7b\"amount\":" ++ toString o.amount ++ ",\"recipient\":" ++
    jsonString o.recipient ++ "\x7d"

/-- JSON rendering of an array from the renderings of its elements. -/
def jsonArray (elems : List String) : String :=
  "[" ++ String.intercalate "," elems ++ "]"

/-- `createTransactionDataForSigning`: the deterministic string
representation of the transaction used for signing — `JSON.stringify` of
`{id, inputs: inputs.map(i => {utxoId: i.utxoId, owner: i.owner}),
outputs, timestamp}` — signatures excluded. -/
def createTransactionDataForSigning (tx : Transaction) : String :=
  "\x7b\"id\":" ++ jsonString tx.id ++
    ",\"inputs\":" ++ jsonArray (tx.inputs.map jsonUnsignedInput) ++
    ",\"outputs\":" ++ jsonArray (tx.outputs.map jsonOutput) ++
    ",\"timestamp\":" ++ toString tx.timestamp ++ "\x7d"

/-- The key string interpolated for an input's UTXO identifier,
`` `${input.utxoId.txId}:${input.utxoId.outputIndex}` ``. -/
def inputKey (i : TransactionInput) : String :=
  i.utxoId.txId ++ ":" ++ toString i.utxoId.outputIndex

/-- Message of a `UTXO_NOT_FOUND` error. -/
def unfMsg (key : String) : String :=
  "UTXO not found: " ++ key

/-- Message of a `NEGATIVE_AMOUNT` error for an output. -/
def outNegMsg (a : Int) : String :=
  "Output amount must be positive: " ++ toString a

/-- Message of a `NEGATIVE_AMOUNT` error for a resolved UTXO. -/
def utxoNegMsg (id : String) : String :=
  "UTXO amount must be positive: " ++ id

/-- Message of an `AMOUNT_MISMATCH` error. -/
def mismatchMsg (tin tout : Int) : String :=
  "Input value " ++ toString tin ++ " is different than output value " ++
    toString tout

/-- Message of an `INVALID_SIGNATURE` error. -/
def sigMsg (key : String) : String :=
  "Invalid signature for UTXO: " ++ key

/-- Message of a `DOUBLE_SPENDING` error. -/
def dsMsg (key : String) : String :=
  "UTXO used more than once: " ++ key

/-- Pool lookup for an input, `this.utxoPool.getUTXO(input.utxoId.txId,
input.utxoId.outputIndex)`. -/
def lookupUTXO (pool : UTXOPool) (i : TransactionInput) : Option UTXO :=
  pool i.utxoId.txId i.utxoId.outputIndex

/-- One step of the output loop
`transaction.outputs.forEach((output) => ...)`: push a `NEGATIVE_AMOUNT`
error when `output.amount <= 0` and add the literal amount to
`totalOutputValue` either way. -/
def outputCheck (acc : List ValidationError × Int) (output : TransactionOutput) :
    List ValidationError × Int :=
  ((if output.amount ≤ 0 then
      acc.1 ++ [createValidationError .NEGATIVE_AMOUNT
        (outNegMsg output.amount)]
    else acc.1),
   acc.2 + output.amount)

/-- One step of the input-amount loop `transaction.inputs.forEach(input =>
...)`: for a resolved UTXO, push a `NEGATIVE_AMOUNT` error when its
recorded amount is non-positive and add the amount to `totalInputValue`;
an unresolved input leaves both untouched. -/
def inputAmountCheck (pool : UTXOPool) (acc : List ValidationError × Int)
    (input : TransactionInput) : List ValidationError × Int :=
  match lookupUTXO pool input with
  | some utxo =>
    ((if utxo.amount ≤ 0 then
        acc.1 ++ [createValidationError .NEGATIVE_AMOUNT
          (utxoNegMsg utxo.id)]
      else acc.1),
     acc.2 + utxo.amount)
  | none => acc

/-- One step of the signature loop: for a resolved UTXO, verify the
input's signature over `createTransactionDataForSigning` against the
UTXO's recorded `recipient`, pushing `INVALID_SIGNATURE` on failure; an
unresolved input is skipped. -/
def signatureCheck (verify : VerifyFn) (pool : UTXOPool) (tx : Transaction)
    (acc : List ValidationError) (input : TransactionInput) :
    List ValidationError :=
  match lookupUTXO pool input with
  | some utxo =>
    if verify (createTransactionDataForSigning tx) input.signature utxo.recipient then
      acc
    else
      acc ++ [createValidationError .INVALID_SIGNATURE
        (sigMsg (inputKey input))]
  | none => acc

/-- The body of the outer `transaction.inputs.forEach(input => ...)`
callback of `validateTransaction`, acting on the accumulated error list
and the `seenUTXOs` keys.  As in the source, the existence check concerns
the current outer input, while the output scan, the input-amount scan, the
balance comparison and the signature scan are re-run in full inside every
outer iteration; the double-spend check closes the iteration and the
current key is added to `seenUTXOs` unconditionally afterwards. -/
def processInput (verify : VerifyFn) (pool : UTXOPool) (tx : Transaction)
    (s : List ValidationError × List String) (input : TransactionInput) :
    List ValidationError × List String :=
  let errors := s.1 ++
    (match lookupUTXO pool input with
     | none => [createValidationError .UTXO_NOT_FOUND
         (unfMsg (inputKey input))]
     | some _ => [])
  let outScan := tx.outputs.foldl outputCheck (errors, 0)
  let errors := outScan.1
  let totalOutputValue := outScan.2
  let inScan := tx.inputs.foldl (inputAmountCheck pool) (errors, 0)
  let errors := inScan.1
  let totalInputValue := inScan.2
  let errors :=
    if totalInputValue ≠ totalOutputValue then
      errors ++ [createValidationError .AMOUNT_MISMATCH
        (mismatchMsg totalInputValue totalOutputValue)]
    else errors
  let errors := tx.inputs.foldl (signatureCheck verify pool tx) errors
  let utxoKey := inputKey input
  let errors :=
    if utxoKey ∈ s.2 then
      errors ++ [createValidationError .DOUBLE_SPENDING
        (dsMsg utxoKey)]
    else errors
  (errors, s.2 ++ [utxoKey])

/-- `validateTransaction`: fold the outer per-input callback over the
transaction's inputs starting from no errors and an empty `seenUTXOs`
set, and return `{valid: errors.length === 0, errors}`. -/
def validateTransaction (verify : VerifyFn) (pool : UTXOPool)
    (tx : Transaction) : ValidationResult :=
  let r := tx.inputs.foldl (processInput verify pool tx) ([], [])
  ⟨r.1.length == 0, r.1⟩

/-- Errors of a given kind in a list. -/
def countKind (k : ValidationErrorKind) (l : List ValidationError) : Nat :=
  l.countP (fun e => decide (e.kind = k))

/-- Errors of a given kind carrying a given message. -/
def countKindMsg (k : ValidationErrorKind) (m : String)
    (l : List ValidationError) : Nat :=
  l.countP (fun e => decide (e.kind = k ∧ e.message = m))

/-- The `NEGATIVE_AMOUNT` errors one pass of the output loop pushes, in
output order. -/
def outputErrs : List TransactionOutput → List ValidationError
  | [] => []
  | o :: rest =>
    (if o.amount ≤ 0 then
       [createValidationError .NEGATIVE_AMOUNT
         (outNegMsg o.amount)]
     else []) ++ outputErrs rest

/-- The value `totalOutputValue` reaches: the sum of all output amounts,
sign included. -/
def sumOutputs (l : List TransactionOutput) : Int :=
  (l.map TransactionOutput.amount).sum

/-- The `NEGATIVE_AMOUNT` errors one pass of the input-amount loop pushes. -/
def inputNegErrs (pool : UTXOPool) : List TransactionInput → List ValidationError
  | [] => []
  | i :: rest =>
    (match lookupUTXO pool i with
     | some utxo =>
       if utxo.amount ≤ 0 then
         [createValidationError .NEGATIVE_AMOUNT
           (utxoNegMsg utxo.id)]
       else []
     | none => []) ++ inputNegErrs pool rest

/-- Amount an input contributes to `totalInputValue`: its resolved UTXO's
amount, and nothing when the lookup fails. -/
def resolvedAmount (pool : UTXOPool) (i : TransactionInput) : Int :=
  match lookupUTXO pool i with
  | some utxo => utxo.amount
  | none => 0

/-- The value `totalInputValue` reaches: the sum of resolved input
amounts. -/
def resolvedSum (pool : UTXOPool) (l : List TransactionInput) : Int :=
  (l.map (resolvedAmount pool)).sum

/-- The `INVALID_SIGNATURE` errors one pass of the signature loop pushes. -/
def sigErrs (verify : VerifyFn) (pool : UTXOPool) (tx : Transaction) :
    List TransactionInput → List ValidationError
  | [] => []
  | i :: rest =>
    (match lookupUTXO pool i with
     | some utxo =>
       if verify (createTransactionDataForSigning tx) i.signature utxo.recipient then
         []
       else
         [createValidationError .INVALID_SIGNATURE
           (sigMsg (inputKey i))]
     | none => []) ++ sigErrs verify pool tx rest

/-- The balance-check error block of one outer iteration. -/
def balanceErrs (pool : UTXOPool) (tx : Transaction) : List ValidationError :=
  if resolvedSum pool tx.inputs ≠ sumOutputs tx.outputs then
    [createValidationError .AMOUNT_MISMATCH
      (mismatchMsg (resolvedSum pool tx.inputs) (sumOutputs tx.outputs))]
  else []

/-- Existence-check error block for one input. -/
def existErrs (pool : UTXOPool) (i : TransactionInput) : List ValidationError :=
  match lookupUTXO pool i with
  | none => [createValidationError .UTXO_NOT_FOUND
      (unfMsg (inputKey i))]
  | some _ => []

/-- Double-spend error block for one input given the keys seen so far. -/
def dsErrs (seen : List String) (key : String) : List ValidationError :=
  if key ∈ seen then
    [createValidationError .DOUBLE_SPENDING
      (dsMsg key)]
  else []

/-- All errors one outer iteration appends, in push order. -/
def inputBlock (verify : VerifyFn) (pool : UTXOPool) (tx : Transaction)
    (seen : List String) (i : TransactionInput) : List ValidationError :=
  existErrs pool i ++ outputErrs tx.outputs ++ inputNegErrs pool tx.inputs ++
    balanceErrs pool tx ++ sigErrs verify pool tx tx.inputs ++
    dsErrs seen (inputKey i)

/-- The error blocks the outer fold produces from a given `seenUTXOs`
state onward. -/
def blocksFrom (verify : VerifyFn) (pool : UTXOPool) (tx : Transaction)
    (seen : List String) : List TransactionInput → List ValidationError
  | [] => []
  | i :: rest =>
    inputBlock verify pool tx seen i ++
      blocksFrom verify pool tx (seen ++ [inputKey i]) rest

/-- An input whose pool lookup fails. -/
def unresolvedB (pool : UTXOPool) (i : TransactionInput) : Bool :=
  (lookupUTXO pool i).isNone

/-- An input that resolves to a UTXO of non-positive recorded amount. -/
def negUTXOB (pool : UTXOPool) (i : TransactionInput) : Bool :=
  match lookupUTXO pool i with
  | some utxo => decide (utxo.amount ≤ 0)
  | none => false

/-- An input that resolves but whose signature fails verification. -/
def sigFailB (verify : VerifyFn) (pool : UTXOPool) (tx : Transaction)
    (i : TransactionInput) : Bool :=
  match lookupUTXO pool i with
  | some utxo =>
    !(verify (createTransactionDataForSigning tx) i.signature utxo.recipient)
  | none => false

/-- Double-spend flags raised while scanning a list of keys with a given
already-seen prefix. -/
def dsCountFor (s : String) : List String → List String → Nat
  | _, [] => 0
  | seen, k :: rest =>
    (if k = s ∧ k ∈ seen then 1 else 0) + dsCountFor s (seen ++ [k]) rest

/-- An input whose resolved UTXO (if any) has strictly positive recorded
amount. -/
def utxoPosOk (pool : UTXOPool) (i : TransactionInput) : Bool :=
  match lookupUTXO pool i with
  | some utxo => decide (0 < utxo.amount)
  | none => true

/-- An input whose signature verifies against its resolved UTXO's
recipient (vacuously fine when unresolved). -/
def sigOk (verify : VerifyFn) (pool : UTXOPool) (tx : Transaction)
    (i : TransactionInput) : Bool :=
  match lookupUTXO pool i with
  | some utxo =>
    verify (createTransactionDataForSigning tx) i.signature utxo.recipient
  | none => true

/-- The running total `totalInputValue` each outer iteration computes. -/
def totalInputValue (pool : UTXOPool) (tx : Transaction) : Int :=
  (tx.inputs.foldl (inputAmountCheck pool) ([], 0)).2

/-- A verifier accepting everything. -/
def vTrue : VerifyFn := fun _ _ _ => true

/-- A verifier accepting exactly the signature string `"good"`. -/
def vGood : VerifyFn := fun _ sig _ => sig == "good"

/-- The empty pool snapshot. -/
def poolEmpty : UTXOPool := fun _ _ => none

/-- A pool holding the single UTXO `(tx1, 0)` of amount 100 owned by `K`. -/
def poolK : UTXOPool := fun t i =>
  if t = "tx1" ∧ i = 0 then some ⟨"tx1:0", 100, "K"⟩ else none

/-- A pool holding `(a, 0)` of amount 2 and `(b, 0)` of amount 3, both
owned by `K`. -/
def poolAB : UTXOPool := fun t i =>
  if t = "a" ∧ i = 0 then some ⟨"a:0", 2, "K"⟩
  else if t = "b" ∧ i = 0 then some ⟨"b:0", 3, "K"⟩
  else none

/-- A balanced, well-signed single-input transaction over `poolK`. -/
def txGood : Transaction :=
  ⟨"t", [⟨⟨"tx1", 0⟩, "K", "s"⟩], [⟨100, "B"⟩], 0⟩

/-- Two distinct unresolved inputs, output total 5 (unbalanced). -/
def txC1 : Transaction :=
  ⟨"t1", [⟨⟨"a", 0⟩, "K", "s"⟩, ⟨⟨"b", 0⟩, "K", "s"⟩], [⟨5, "B"⟩], 0⟩

/-- One resolved input of amount 100, outputs `[-5, 105]` summing to 100:
balanced, resolved and well-signed under `vTrue`, but with a non-positive
output. -/
def txC2bad : Transaction :=
  ⟨"t2", [⟨⟨"tx1", 0⟩, "K", "s"⟩], [⟨-5, "A"⟩, ⟨105, "B"⟩], 0⟩

/-- Two resolved balanced inputs over `poolAB`; the first signature
verifies under `vGood`, the second does not. -/
def txC3 : Transaction :=
  ⟨"t3", [⟨⟨"a", 0⟩, "K", "good"⟩, ⟨⟨"b", 0⟩, "K", "bad"⟩], [⟨5, "B"⟩], 0⟩

/-- Two distinct unresolved inputs and one output of amount -5. -/
def txC4 : Transaction :=
  ⟨"t4", [⟨⟨"a", 0⟩, "K", "s"⟩, ⟨⟨"b", 0⟩, "K", "s"⟩], [⟨-5, "B"⟩], 0⟩

/-- No inputs, one output of amount 5 (output total 5 ≠ 0). -/
def txC5 : Transaction :=
  ⟨"t5", [], [⟨5, "B"⟩], 0⟩

/-- Two inputs referencing the same unresolved identifier `(a, 0)`. -/
def txDup : Transaction :=
  ⟨"t", [⟨⟨"a", 0⟩, "K", "s"⟩, ⟨⟨"a", 0⟩, "K", "s"⟩], [], 0⟩

/-- Same transaction as `txSigB` except for the first input's signature. -/
def txSigA : Transaction :=
  ⟨"t", [⟨⟨"tx1", 0⟩, "K", "sigA"⟩], [⟨100, "B"⟩], 7⟩

/-- Same transaction as `txSigA` except for the first input's signature. -/
def txSigB : Transaction :=
  ⟨"t", [⟨⟨"tx1", 0⟩, "K", "sigB"⟩], [⟨100, "B"⟩], 7⟩

theorem append_ite_single {α : Type} (E : List α) (c : Prop) [Decidable c]
    (x : α) : (if c then E ++ [x] else E) = E ++ (if c then [x] else []) := by
  split <;> simp

theorem foldl_outputCheck (l : List TransactionOutput) (e : List ValidationError)
    (t : Int) : l.foldl outputCheck (e, t) = (e ++ outputErrs l, t + sumOutputs l) := by
  induction l generalizing e t with
  | nil => simp [outputErrs, sumOutputs]
  | cons o rest ih =>
    simp only [List.foldl_cons, outputCheck]
    rw [ih]
    by_cases h : o.amount ≤ 0 <;>
      simp [h, outputErrs, sumOutputs, List.append_assoc, add_assoc]

theorem foldl_inputAmountCheck (pool : UTXOPool) (l : List TransactionInput)
    (e : List ValidationError) (t : Int) :
    l.foldl (inputAmountCheck pool) (e, t) =
      (e ++ inputNegErrs pool l, t + resolvedSum pool l) := by
  induction l generalizing e t with
  | nil => simp [inputNegErrs, resolvedSum]
  | cons i rest ih =>
    simp only [List.foldl_cons, inputAmountCheck]
    cases h : lookupUTXO pool i with
    | none =>
      rw [ih]
      simp [inputNegErrs, resolvedSum, resolvedAmount, h]
    | some u =>
      rw [ih]
      by_cases ha : u.amount ≤ 0 <;>
        simp [h, ha, inputNegErrs, resolvedSum, resolvedAmount,
          List.append_assoc, add_assoc]

theorem foldl_signatureCheck (verify : VerifyFn) (pool : UTXOPool)
    (tx : Transaction) (l : List TransactionInput) (e : List ValidationError) :
    l.foldl (signatureCheck verify pool tx) e = e ++ sigErrs verify pool tx l := by
  induction l generalizing e with
  | nil => simp [sigErrs]
  | cons i rest ih =>
    simp only [List.foldl_cons, signatureCheck]
    cases h : lookupUTXO pool i with
    | none =>
      rw [ih]
      simp [sigErrs, h]
    | some u =>
      by_cases hv : verify (createTransactionDataForSigning tx) i.signature u.recipient <;>
        · rw [ih]
          simp [sigErrs, h, hv, List.append_assoc]

theorem processInput_eq (verify : VerifyFn) (pool : UTXOPool) (tx : Transaction)
    (s : List ValidationError × List String) (i : TransactionInput) :
    processInput verify pool tx s i =
      (s.1 ++ inputBlock verify pool tx s.2 i, s.2 ++ [inputKey i]) := by
  unfold processInput
  dsimp only
  rw [foldl_outputCheck, foldl_inputAmountCheck, foldl_signatureCheck]
  simp only [zero_add]
  unfold inputBlock existErrs balanceErrs dsErrs
  rw [append_ite_single, append_ite_single]
  cases h : lookupUTXO pool i <;>
    simp [h, List.append_assoc]

theorem foldl_processInput (verify : VerifyFn) (pool : UTXOPool)
    (tx : Transaction) (l : List TransactionInput) (e : List ValidationError)
    (seen : List String) :
    l.foldl (processInput verify pool tx) (e, seen) =
      (e ++ blocksFrom verify pool tx seen l, seen ++ l.map inputKey) := by
  induction l generalizing e seen with
  | nil => simp [blocksFrom]
  | cons i rest ih =>
    simp only [List.foldl_cons, processInput_eq]
    rw [ih]
    simp [blocksFrom, List.append_assoc]

theorem validate_errors (verify : VerifyFn) (pool : UTXOPool) (tx : Transaction) :
    (validateTransaction verify pool tx).errors =
      blocksFrom verify pool tx [] tx.inputs := by
  unfold validateTransaction
  rw [foldl_processInput]
  simp

theorem validate_valid (verify : VerifyFn) (pool : UTXOPool) (tx : Transaction) :
    (validateTransaction verify pool tx).valid =
      ((blocksFrom verify pool tx [] tx.inputs).length == 0) := by
  unfold validateTransaction
  rw [foldl_processInput]
  simp

theorem string_append_cancel_iff (a b c : String) : a ++ b = a ++ c ↔ b = c := by
  constructor
  · intro h
    have hd : a.data ++ b.data = a.data ++ c.data := by
      rw [← String.data_append, ← String.data_append, h]
    have hbc : b.data = c.data := List.append_cancel_left hd
    cases b
    cases c
    exact congrArg String.mk hbc
  · intro h
    rw [h]

theorem kind_of_mem_outputErrs {e : ValidationError} {l : List TransactionOutput}
    (h : e ∈ outputErrs l) : e.kind = .NEGATIVE_AMOUNT := by
  induction l with
  | nil => simp [outputErrs] at h
  | cons o rest ih =>
    simp only [outputErrs, List.mem_append] at h
    rcases h with h | h
    · split at h <;> simp_all [createValidationError]
    · exact ih h

theorem kind_of_mem_inputNegErrs {pool : UTXOPool} {e : ValidationError}
    {l : List TransactionInput} (h : e ∈ inputNegErrs pool l) :
    e.kind = .NEGATIVE_AMOUNT := by
  induction l with
  | nil => simp [inputNegErrs] at h
  | cons i rest ih =>
    simp only [inputNegErrs, List.mem_append] at h
    rcases h with h | h
    · cases hlk : lookupUTXO pool i with
      | none => rw [hlk] at h; simp at h
      | some u => rw [hlk] at h; split at h <;> simp_all [createValidationError]
    · exact ih h

theorem kind_of_mem_sigErrs {verify : VerifyFn} {pool : UTXOPool}
    {tx : Transaction} {e : ValidationError} {l : List TransactionInput}
    (h : e ∈ sigErrs verify pool tx l) : e.kind = .INVALID_SIGNATURE := by
  induction l with
  | nil => simp [sigErrs] at h
  | cons i rest ih =>
    simp only [sigErrs, List.mem_append] at h
    rcases h with h | h
    · cases hlk : lookupUTXO pool i with
      | none => rw [hlk] at h; simp at h
      | some u => rw [hlk] at h; split at h <;> simp_all [createValidationError]
    · exact ih h

theorem kind_of_mem_existErrs {pool : UTXOPool} {e : ValidationError}
    {i : TransactionInput} (h : e ∈ existErrs pool i) :
    e.kind = .UTXO_NOT_FOUND := by
  unfold existErrs at h
  cases hlk : lookupUTXO pool i with
  | none => rw [hlk] at h; simp_all [createValidationError]
  | some u => rw [hlk] at h; simp at h

theorem kind_of_mem_balanceErrs {pool : UTXOPool} {tx : Transaction}
    {e : ValidationError} (h : e ∈ balanceErrs pool tx) :
    e.kind = .AMOUNT_MISMATCH := by
  unfold balanceErrs at h
  split at h <;> simp_all [createValidationError]

theorem kind_of_mem_dsErrs {seen : List String} {key : String}
    {e : ValidationError} (h : e ∈ dsErrs seen key) :
    e.kind = .DOUBLE_SPENDING := by
  unfold dsErrs at h
  split at h <;> simp_all [createValidationError]

theorem countP_zero_of_kind {l : List ValidationError} {k0 : ValidationErrorKind}
    (hl : ∀ e ∈ l, e.kind = k0) {p : ValidationError → Bool}
    (hp : ∀ e : ValidationError, e.kind = k0 → p e = false) : l.countP p = 0 :=
  List.countP_eq_zero.mpr fun e he => by simp [hp e (hl e he)]

theorem countKind_zero {l : List ValidationError} {k0 k : ValidationErrorKind}
    (hl : ∀ e ∈ l, e.kind = k0) (hk : k0 ≠ k) : countKind k l = 0 :=
  countP_zero_of_kind hl fun e he => by simp [he, hk]

theorem countKindMsg_zero {l : List ValidationError} {k0 k : ValidationErrorKind}
    {m : String} (hl : ∀ e ∈ l, e.kind = k0) (hk : k0 ≠ k) :
    countKindMsg k m l = 0 :=
  countP_zero_of_kind hl fun e he => by simp [he, hk]

theorem countKind_outputErrs (l : List TransactionOutput) :
    countKind .NEGATIVE_AMOUNT (outputErrs l) =
      l.countP (fun o => decide (o.amount ≤ 0)) := by
  induction l with
  | nil => simp [outputErrs, countKind]
  | cons o rest ih =>
    simp only [outputErrs, countKind, List.countP_append, List.countP_cons] at *
    rw [ih]
    by_cases h : o.amount ≤ 0 <;> simp [h, createValidationError] <;> omega

theorem countKind_inputNegErrs (pool : UTXOPool) (l : List TransactionInput) :
    countKind .NEGATIVE_AMOUNT (inputNegErrs pool l) =
      l.countP (negUTXOB pool) := by
  induction l with
  | nil => simp [inputNegErrs, countKind]
  | cons i rest ih =>
    simp only [inputNegErrs, countKind, List.countP_append, List.countP_cons] at *
    rw [ih]
    cases hlk : lookupUTXO pool i with
    | none => simp [negUTXOB, hlk]
    | some u =>
      by_cases h : u.amount ≤ 0 <;>
        simp [negUTXOB, hlk, h, createValidationError] <;> omega

theorem countKind_sigErrs (verify : VerifyFn) (pool : UTXOPool)
    (tx : Transaction) (l : List TransactionInput) :
    countKind .INVALID_SIGNATURE (sigErrs verify pool tx l) =
      l.countP (sigFailB verify pool tx) := by
  induction l with
  | nil => simp [sigErrs, countKind]
  | cons i rest ih =>
    simp only [sigErrs, countKind, List.countP_append, List.countP_cons] at *
    rw [ih]
    cases hlk : lookupUTXO pool i with
    | none => simp [sigFailB, hlk]
    | some u =>
      by_cases h : verify (createTransactionDataForSigning tx) i.signature u.recipient <;>
        simp [sigFailB, hlk, h, createValidationError] <;> omega

theorem countKind_existErrs (pool : UTXOPool) (i : TransactionInput) :
    countKind .UTXO_NOT_FOUND (existErrs pool i) =
      if unresolvedB pool i then 1 else 0 := by
  unfold countKind existErrs
  cases hlk : lookupUTXO pool i <;>
    simp [unresolvedB, hlk, createValidationError]

theorem countKind_balanceErrs (pool : UTXOPool) (tx : Transaction) :
    countKind .AMOUNT_MISMATCH (balanceErrs pool tx) =
      if resolvedSum pool tx.inputs = sumOutputs tx.outputs then 0 else 1 := by
  unfold countKind balanceErrs
  by_cases h : resolvedSum pool tx.inputs = sumOutputs tx.outputs <;>
    simp [h, createValidationError]

theorem countKindMsg_dsErrs (seen : List String) (key s : String) :
    countKindMsg .DOUBLE_SPENDING (dsMsg s) (dsErrs seen key) =
      if key = s ∧ key ∈ seen then 1 else 0 := by
  have hiff : dsMsg key = dsMsg s ↔ key = s := string_append_cancel_iff _ _ _
  unfold countKindMsg dsErrs
  by_cases hk : key = s
  · subst hk
    by_cases hm : key ∈ seen <;>
      simp [hm, createValidationError, List.countP_cons]
  · by_cases hm : key ∈ seen <;>
      simp [hm, hk, hiff, createValidationError, List.countP_cons]

theorem countKindMsg_existErrs (pool : UTXOPool) (i : TransactionInput)
    (s : String) :
    countKindMsg .UTXO_NOT_FOUND (unfMsg s) (existErrs pool i) =
      if inputKey i = s ∧ unresolvedB pool i then 1 else 0 := by
  have hiff : unfMsg (inputKey i) = unfMsg s ↔ inputKey i = s :=
    string_append_cancel_iff _ _ _
  unfold countKindMsg existErrs
  by_cases hk : inputKey i = s
  · rw [hk] at hiff ⊢
    cases hlk : lookupUTXO pool i <;>
      simp [unresolvedB, hlk, createValidationError, hiff, List.countP_cons]
  · cases hlk : lookupUTXO pool i <;>
      simp [unresolvedB, hlk, hk, hiff, createValidationError, List.countP_cons]

theorem countKind_append (k : ValidationErrorKind) (l1 l2 : List ValidationError) :
    countKind k (l1 ++ l2) = countKind k l1 + countKind k l2 :=
  List.countP_append _ l1 l2

theorem countKindMsg_append (k : ValidationErrorKind) (m : String)
    (l1 l2 : List ValidationError) :
    countKindMsg k m (l1 ++ l2) = countKindMsg k m l1 + countKindMsg k m l2 :=
  List.countP_append _ l1 l2

theorem countKind_inputBlock_unf (v : VerifyFn) (pool : UTXOPool)
    (tx : Transaction) (seen : List String) (i : TransactionInput) :
    countKind .UTXO_NOT_FOUND (inputBlock v pool tx seen i) =
      if unresolvedB pool i then 1 else 0 := by
  simp only [inputBlock, countKind_append]
  rw [countKind_existErrs,
    countKind_zero (fun e he => kind_of_mem_outputErrs he) (by decide),
    countKind_zero (fun e he => kind_of_mem_inputNegErrs he) (by decide),
    countKind_zero (fun e he => kind_of_mem_balanceErrs he) (by decide),
    countKind_zero (fun e he => kind_of_mem_sigErrs he) (by decide),
    countKind_zero (fun e he => kind_of_mem_dsErrs he) (by decide)]
  simp

theorem countKind_inputBlock_neg (v : VerifyFn) (pool : UTXOPool)
    (tx : Transaction) (seen : List String) (i : TransactionInput) :
    countKind .NEGATIVE_AMOUNT (inputBlock v pool tx seen i) =
      tx.outputs.countP (fun o => decide (o.amount ≤ 0)) +
        tx.inputs.countP (negUTXOB pool) := by
  simp only [inputBlock, countKind_append]
  rw [countKind_outputErrs, countKind_inputNegErrs,
    countKind_zero (fun e he => kind_of_mem_existErrs he) (by decide),
    countKind_zero (fun e he => kind_of_mem_balanceErrs he) (by decide),
    countKind_zero (fun e he => kind_of_mem_sigErrs he) (by decide),
    countKind_zero (fun e he => kind_of_mem_dsErrs he) (by decide)]
  simp

theorem countKind_inputBlock_mismatch (v : VerifyFn) (pool : UTXOPool)
    (tx : Transaction) (seen : List String) (i : TransactionInput) :
    countKind .AMOUNT_MISMATCH (inputBlock v pool tx seen i) =
      if resolvedSum pool tx.inputs = sumOutputs tx.outputs then 0 else 1 := by
  simp only [inputBlock, countKind_append]
  rw [countKind_balanceErrs,
    countKind_zero (fun e he => kind_of_mem_existErrs he) (by decide),
    countKind_zero (fun e he => kind_of_mem_outputErrs he) (by decide),
    countKind_zero (fun e he => kind_of_mem_inputNegErrs he) (by decide),
    countKind_zero (fun e he => kind_of_mem_sigErrs he) (by decide),
    countKind_zero (fun e he => kind_of_mem_dsErrs he) (by decide)]
  simp

theorem countKind_inputBlock_sig (v : VerifyFn) (pool : UTXOPool)
    (tx : Transaction) (seen : List String) (i : TransactionInput) :
    countKind .INVALID_SIGNATURE (inputBlock v pool tx seen i) =
      tx.inputs.countP (sigFailB v pool tx) := by
  simp only [inputBlock, countKind_append]
  rw [countKind_sigErrs,
    countKind_zero (fun e he => kind_of_mem_existErrs he) (by decide),
    countKind_zero (fun e he => kind_of_mem_outputErrs he) (by decide),
    countKind_zero (fun e he => kind_of_mem_inputNegErrs he) (by decide),
    countKind_zero (fun e he => kind_of_mem_balanceErrs he) (by decide),
    countKind_zero (fun e he => kind_of_mem_dsErrs he) (by decide)]
  simp

theorem countKindMsg_inputBlock_ds (v : VerifyFn) (pool : UTXOPool)
    (tx : Transaction) (seen : List String) (i : TransactionInput) (s : String) :
    countKindMsg .DOUBLE_SPENDING (dsMsg s) (inputBlock v pool tx seen i) =
      if inputKey i = s ∧ inputKey i ∈ seen then 1 else 0 := by
  simp only [inputBlock, countKindMsg_append]
  rw [countKindMsg_dsErrs,
    countKindMsg_zero (fun e he => kind_of_mem_existErrs he) (by decide),
    countKindMsg_zero (fun e he => kind_of_mem_outputErrs he) (by decide),
    countKindMsg_zero (fun e he => kind_of_mem_inputNegErrs he) (by decide),
    countKindMsg_zero (fun e he => kind_of_mem_balanceErrs he) (by decide),
    countKindMsg_zero (fun e he => kind_of_mem_sigErrs he) (by decide)]
  simp

theorem countKindMsg_inputBlock_unf (v : VerifyFn) (pool : UTXOPool)
    (tx : Transaction) (seen : List String) (i : TransactionInput) (s : String) :
    countKindMsg .UTXO_NOT_FOUND (unfMsg s) (inputBlock v pool tx seen i) =
      if inputKey i = s ∧ unresolvedB pool i then 1 else 0 := by
  simp only [inputBlock, countKindMsg_append]
  rw [countKindMsg_existErrs,
    countKindMsg_zero (fun e he => kind_of_mem_outputErrs he) (by decide),
    countKindMsg_zero (fun e he => kind_of_mem_inputNegErrs he) (by decide),
    countKindMsg_zero (fun e he => kind_of_mem_balanceErrs he) (by decide),
    countKindMsg_zero (fun e he => kind_of_mem_sigErrs he) (by decide),
    countKindMsg_zero (fun e he => kind_of_mem_dsErrs he) (by decide)]
  simp

theorem dsCountFor_eq (s : String) (seen : List String) (l : List String) :
    dsCountFor s seen l = if s ∈ seen then l.count s else l.count s - 1 := by
  induction l generalizing seen with
  | nil => by_cases h : s ∈ seen <;> simp [dsCountFor, h]
  | cons k rest ih =>
    simp only [dsCountFor, ih]
    by_cases hk : k = s
    · subst hk
      by_cases hs : k ∈ seen <;>
        simp [hs, List.count_cons, List.mem_append] <;> omega
    · by_cases hs : s ∈ seen <;>
        simp [hs, hk, List.count_cons, List.mem_append, Ne.symm hk] <;> omega

theorem countKind_blocksFrom_unf (v : VerifyFn) (pool : UTXOPool)
    (tx : Transaction) (l : List TransactionInput) (seen : List String) :
    countKind .UTXO_NOT_FOUND (blocksFrom v pool tx seen l) =
      l.countP (unresolvedB pool) := by
  induction l generalizing seen with
  | nil => simp [blocksFrom, countKind]
  | cons i rest ih =>
    simp only [blocksFrom, countKind_append, countKind_inputBlock_unf,
      List.countP_cons, ih]
    by_cases h : unresolvedB pool i <;> simp [h] <;> omega

theorem countKind_blocksFrom_neg (v : VerifyFn) (pool : UTXOPool)
    (tx : Transaction) (l : List TransactionInput) (seen : List String) :
    countKind .NEGATIVE_AMOUNT (blocksFrom v pool tx seen l) =
      l.length * (tx.outputs.countP (fun o => decide (o.amount ≤ 0)) +
        tx.inputs.countP (negUTXOB pool)) := by
  induction l generalizing seen with
  | nil => simp [blocksFrom, countKind]
  | cons i rest ih =>
    simp only [blocksFrom, countKind_append, countKind_inputBlock_neg,
      List.length_cons, ih]
    ring

theorem countKind_blocksFrom_mismatch (v : VerifyFn) (pool : UTXOPool)
    (tx : Transaction) (l : List TransactionInput) (seen : List String) :
    countKind .AMOUNT_MISMATCH (blocksFrom v pool tx seen l) =
      if resolvedSum pool tx.inputs = sumOutputs tx.outputs then 0
      else l.length := by
  induction l generalizing seen with
  | nil =>
    by_cases h : resolvedSum pool tx.inputs = sumOutputs tx.outputs <;>
      simp [blocksFrom, countKind, h]
  | cons i rest ih =>
    simp only [blocksFrom, countKind_append, countKind_inputBlock_mismatch,
      List.length_cons, ih]
    by_cases h : resolvedSum pool tx.inputs = sumOutputs tx.outputs <;>
      simp [h] <;> omega

theorem countKind_blocksFrom_sig (v : VerifyFn) (pool : UTXOPool)
    (tx : Transaction) (l : List TransactionInput) (seen : List String) :
    countKind .INVALID_SIGNATURE (blocksFrom v pool tx seen l) =
      l.length * tx.inputs.countP (sigFailB v pool tx) := by
  induction l generalizing seen with
  | nil => simp [blocksFrom, countKind]
  | cons i rest ih =>
    simp only [blocksFrom, countKind_append, countKind_inputBlock_sig,
      List.length_cons, ih]
    ring

theorem countKindMsg_blocksFrom_ds (v : VerifyFn) (pool : UTXOPool)
    (tx : Transaction) (l : List TransactionInput) (seen : List String)
    (s : String) :
    countKindMsg .DOUBLE_SPENDING (dsMsg s) (blocksFrom v pool tx seen l) =
      dsCountFor s seen (l.map inputKey) := by
  induction l generalizing seen with
  | nil => simp [blocksFrom, countKindMsg, dsCountFor]
  | cons i rest ih =>
    simp only [blocksFrom, countKindMsg_append, countKindMsg_inputBlock_ds,
      List.map_cons, dsCountFor, ih]

theorem countKindMsg_blocksFrom_unf (v : VerifyFn) (pool : UTXOPool)
    (tx : Transaction) (l : List TransactionInput) (seen : List String)
    (s : String) :
    countKindMsg .UTXO_NOT_FOUND (unfMsg s) (blocksFrom v pool tx seen l) =
      l.countP (fun i => inputKey i == s && unresolvedB pool i) := by
  induction l generalizing seen with
  | nil => simp [blocksFrom, countKindMsg]
  | cons i rest ih =>
    simp only [blocksFrom, countKindMsg_append, countKindMsg_inputBlock_unf,
      List.countP_cons, ih]
    by_cases hk : inputKey i = s <;> by_cases hu : unresolvedB pool i <;>
      simp [hk, hu] <;> omega

theorem countKind_validate_unf (v : VerifyFn) (pool : UTXOPool)
    (tx : Transaction) :
    countKind .UTXO_NOT_FOUND (validateTransaction v pool tx).errors =
      tx.inputs.countP (unresolvedB pool) := by
  rw [validate_errors, countKind_blocksFrom_unf]

theorem countKind_validate_neg (v : VerifyFn) (pool : UTXOPool)
    (tx : Transaction) :
    countKind .NEGATIVE_AMOUNT (validateTransaction v pool tx).errors =
      tx.inputs.length * (tx.outputs.countP (fun o => decide (o.amount ≤ 0)) +
        tx.inputs.countP (negUTXOB pool)) := by
  rw [validate_errors, countKind_blocksFrom_neg]

theorem countKind_validate_mismatch (v : VerifyFn) (pool : UTXOPool)
    (tx : Transaction) :
    countKind .AMOUNT_MISMATCH (validateTransaction v pool tx).errors =
      if resolvedSum pool tx.inputs = sumOutputs tx.outputs then 0
      else tx.inputs.length := by
  rw [validate_errors, countKind_blocksFrom_mismatch]

theorem countKind_validate_sig (v : VerifyFn) (pool : UTXOPool)
    (tx : Transaction) :
    countKind .INVALID_SIGNATURE (validateTransaction v pool tx).errors =
      tx.inputs.length * tx.inputs.countP (sigFailB v pool tx) := by
  rw [validate_errors, countKind_blocksFrom_sig]

theorem countKindMsg_validate_ds (v : VerifyFn) (pool : UTXOPool)
    (tx : Transaction) (s : String) :
    countKindMsg .DOUBLE_SPENDING (dsMsg s) (validateTransaction v pool tx).errors =
      (tx.inputs.map inputKey).count s - 1 := by
  rw [validate_errors, countKindMsg_blocksFrom_ds, dsCountFor_eq]
  simp

theorem countKindMsg_validate_unf (v : VerifyFn) (pool : UTXOPool)
    (tx : Transaction) (s : String) :
    countKindMsg .UTXO_NOT_FOUND (unfMsg s) (validateTransaction v pool tx).errors =
      tx.inputs.countP (fun i => inputKey i == s && unresolvedB pool i) := by
  rw [validate_errors, countKindMsg_blocksFrom_unf]

theorem totalInputValue_eq (pool : UTXOPool) (tx : Transaction) :
    totalInputValue pool tx = resolvedSum pool tx.inputs := by
  unfold totalInputValue
  rw [foldl_inputAmountCheck]
  simp

theorem resolvedSum_filterMap (pool : UTXOPool) (l : List TransactionInput) :
    resolvedSum pool l = ((l.filterMap (lookupUTXO pool)).map UTXO.amount).sum := by
  induction l with
  | nil => rfl
  | cons i rest ih =>
    simp only [resolvedSum, List.map_cons, List.sum_cons] at *
    cases hlk : lookupUTXO pool i with
    | none => simp [List.filterMap_cons, hlk, resolvedAmount, ih]
    | some u => simp [List.filterMap_cons, hlk, resolvedAmount, ih]

theorem outputErrs_eq_nil {l : List TransactionOutput}
    (h : ∀ o ∈ l, 0 < o.amount) : outputErrs l = [] := by
  induction l with
  | nil => rfl
  | cons o rest ih =>
    have ho : ¬ o.amount ≤ 0 := by
      have := h o (by simp)
      omega
    simp [outputErrs, ho, ih (fun o2 ho2 => h o2 (by simp [ho2]))]

theorem inputNegErrs_eq_nil {pool : UTXOPool} {l : List TransactionInput}
    (h : ∀ i ∈ l, utxoPosOk pool i = true) : inputNegErrs pool l = [] := by
  induction l with
  | nil => rfl
  | cons i rest ih =>
    have hi := h i (by simp)
    unfold utxoPosOk at hi
    have hrest := ih (fun j hj => h j (by simp [hj]))
    cases hlk : lookupUTXO pool i with
    | none => simp [inputNegErrs, hlk, hrest]
    | some u =>
      rw [hlk] at hi
      have hpos : ¬ u.amount ≤ 0 := by
        simp at hi
        omega
      simp [inputNegErrs, hlk, hpos, hrest]

theorem sigErrs_eq_nil {verify : VerifyFn} {pool : UTXOPool} {tx : Transaction}
    {l : List TransactionInput} (h : ∀ i ∈ l, sigOk verify pool tx i = true) :
    sigErrs verify pool tx l = [] := by
  induction l with
  | nil => rfl
  | cons i rest ih =>
    have hi := h i (by simp)
    unfold sigOk at hi
    have hrest := ih (fun j hj => h j (by simp [hj]))
    cases hlk : lookupUTXO pool i with
    | none => simp [sigErrs, hlk, hrest]
    | some u =>
      rw [hlk] at hi
      simp at hi
      simp [sigErrs, hlk, hi, hrest]

theorem existErrs_eq_nil {pool : UTXOPool} {i : TransactionInput}
    (h : (lookupUTXO pool i).isSome) : existErrs pool i = [] := by
  cases hlk : lookupUTXO pool i with
  | none => rw [hlk] at h; simp at h
  | some u => simp [existErrs, hlk]

theorem balanceErrs_eq_nil {pool : UTXOPool} {tx : Transaction}
    (h : resolvedSum pool tx.inputs = sumOutputs tx.outputs) :
    balanceErrs pool tx = [] := by
  simp [balanceErrs, h]

theorem dsErrs_eq_nil {seen : List String} {key : String} (h : key ∉ seen) :
    dsErrs seen key = [] := by
  simp [dsErrs, h]

theorem blocksFrom_eq_nil (v : VerifyFn) (pool : UTXOPool) (tx : Transaction)
    {l : List TransactionInput} {seen : List String}
    (hex : ∀ i ∈ l, (lookupUTXO pool i).isSome)
    (hout : outputErrs tx.outputs = [])
    (hneg : inputNegErrs pool tx.inputs = [])
    (hbal : balanceErrs pool tx = [])
    (hsig : sigErrs v pool tx tx.inputs = [])
    (hnd : (seen ++ l.map inputKey).Nodup) :
    blocksFrom v pool tx seen l = [] := by
  induction l generalizing seen with
  | nil => rfl
  | cons i rest ih =>
    have hkey : inputKey i ∉ seen := by
      rcases List.nodup_append.mp hnd with ⟨-, -, hdisj⟩
      intro hmem
      exact hdisj hmem (by simp)
    have hnd2 : ((seen ++ [inputKey i]) ++ rest.map inputKey).Nodup := by
      simpa [List.append_assoc] using hnd
    simp [blocksFrom, inputBlock, existErrs_eq_nil (hex i (by simp)), hout,
      hneg, hbal, hsig, dsErrs_eq_nil hkey,
      ih (fun j hj => hex j (by simp [hj])) hnd2]

/-- C1: the claim states that a transaction whose total resolved input
value differs from its total output value yields exactly one
`AMOUNT_MISMATCH` error regardless of how many inputs and outputs it has.
The code re-runs the balance comparison once per input (the whole check
body is nested inside the per-input loop of `validateTransaction`), so at
`txC1` — two inputs, resolved input total 0, output total 5 — it emits
two `AMOUNT_MISMATCH` errors instead of one. -/
theorem C1_mismatch_once_per_input :
    countKind .AMOUNT_MISMATCH
      (validateTransaction vTrue poolEmpty txC1).errors = 2 := by
  decide

/-- C2 counterexample: the claim as stated is false.  At `txC2bad` every
input resolves in `poolK`, the resolved input total equals the output
total (100 = -5 + 105), every signature verifies under `vTrue`, and no
UTXO identifier repeats, yet the validator reports `valid = false`
(the output of amount -5 draws a `NEGATIVE_AMOUNT` error). -/
theorem C2_counterexample :
    (∀ i ∈ txC2bad.inputs, (lookupUTXO poolK i).isSome) ∧
    resolvedSum poolK txC2bad.inputs = sumOutputs txC2bad.outputs ∧
    (∀ i ∈ txC2bad.inputs, sigOk vTrue poolK txC2bad i = true) ∧
    (txC2bad.inputs.map inputKey).Nodup ∧
    (validateTransaction vTrue poolK txC2bad).valid = false := by
  decide

/-- C2 (amended): if additionally every output amount and every resolved
UTXO's recorded amount is strictly positive — besides every input
resolving, the resolved input total equalling the output total, every
signature verifying against its UTXO's recipient, and no UTXO identifier
key repeating among the inputs — then `validateTransaction` returns
`valid = true` with an empty error list. -/
theorem C2_valid_when_clean (v : VerifyFn) (pool : UTXOPool) (tx : Transaction)
    (h1 : ∀ i ∈ tx.inputs, (lookupUTXO pool i).isSome)
    (h2 : ∀ i ∈ tx.inputs, utxoPosOk pool i = true)
    (h3 : ∀ o ∈ tx.outputs, 0 < o.amount)
    (h4 : resolvedSum pool tx.inputs = sumOutputs tx.outputs)
    (h5 : ∀ i ∈ tx.inputs, sigOk v pool tx i = true)
    (h6 : (tx.inputs.map inputKey).Nodup) :
    validateTransaction v pool tx = ⟨true, []⟩ := by
  have herr : blocksFrom v pool tx [] tx.inputs = [] :=
    blocksFrom_eq_nil v pool tx h1 (outputErrs_eq_nil h3)
      (inputNegErrs_eq_nil h2) (balanceErrs_eq_nil h4) (sigErrs_eq_nil h5)
      (by simpa using h6)
  unfold validateTransaction
  dsimp only
  rw [foldl_processInput, herr]
  rfl

/-- C2 witness: the amended theorem applied to the concrete clean
transaction `txGood` over `poolK`. -/
theorem C2_valid_when_clean_wit :
    validateTransaction vTrue poolK txGood = ⟨true, []⟩ :=
  C2_valid_when_clean vTrue poolK txGood (by decide) (by decide) (by decide)
    (by decide) (by decide) (by decide)

/-- C3: the claim states that a resolved input whose signature fails
verification draws one `INVALID_SIGNATURE` error (exactly when it fails).
The code re-runs the whole signature loop once per input of the
transaction, so at `txC3` — two resolved inputs of which only the second
fails under `vGood` — the result carries two `INVALID_SIGNATURE` errors,
both referencing `b:0`, instead of one.  (For a single-input transaction
the counts coincide, which is the scenario the spec lists.) -/
theorem C3_signature_errors_repeated :
    countKind .INVALID_SIGNATURE
        (validateTransaction vGood poolAB txC3).errors = 2 ∧
    countKindMsg .INVALID_SIGNATURE (sigMsg "b:0")
        (validateTransaction vGood poolAB txC3).errors = 2 := by
  decide

/-- C4: the claim states that each output with `amount <= 0` draws exactly
one `NEGATIVE_AMOUNT` error whatever the number of inputs.  The code
re-runs the output scan once per input, so at `txC4` — two inputs and one
offending output of amount -5 — the error referencing that output appears
twice. -/
theorem C4_negative_output_repeated :
    countKindMsg .NEGATIVE_AMOUNT (outNegMsg (-5))
      (validateTransaction vTrue poolEmpty txC4).errors = 2 := by
  decide

/-- C5: the claim states that a transaction with zero inputs whose outputs
sum to a nonzero value is invalid (the vacuous balance check `0 == 5`
fails).  In the code every check lives inside `transaction.inputs.forEach`,
so with zero inputs no check runs at all: at `txC5` (no inputs, one output
of amount 5) the validator returns `valid = true` with no errors. -/
theorem C5_zero_inputs_accepted :
    validateTransaction vTrue poolEmpty txC5 = ⟨true, []⟩ := by
  decide

/-- C6: an input whose identifier is absent from the pool draws exactly
one `UTXO_NOT_FOUND` (the count of that kind is the number of unresolved
inputs), contributes nothing to `totalInputValue` (which sums the amounts
of the resolved UTXOs only), and is subjected to neither the UTXO-amount
positivity check nor the signature check (both counts range over resolved
inputs only — `negUTXOB` and `sigFailB` are false on unresolved inputs). -/
theorem C6_not_found_isolation (v : VerifyFn) (pool : UTXOPool)
    (tx : Transaction) :
    countKind .UTXO_NOT_FOUND (validateTransaction v pool tx).errors =
      tx.inputs.countP (unresolvedB pool) ∧
    totalInputValue pool tx =
      ((tx.inputs.filterMap (lookupUTXO pool)).map UTXO.amount).sum ∧
    countKind .NEGATIVE_AMOUNT (validateTransaction v pool tx).errors =
      tx.inputs.length * (tx.outputs.countP (fun o => decide (o.amount ≤ 0)) +
        tx.inputs.countP (negUTXOB pool)) ∧
    countKind .INVALID_SIGNATURE (validateTransaction v pool tx).errors =
      tx.inputs.length * tx.inputs.countP (sigFailB v pool tx) :=
  ⟨countKind_validate_unf v pool tx,
   by rw [totalInputValue_eq, resolvedSum_filterMap],
   countKind_validate_neg v pool tx,
   countKind_validate_sig v pool tx⟩

/-- C7: for every UTXO identifier key `s`, the number of `DOUBLE_SPENDING`
errors referencing `s` is one less than the number of inputs carrying `s`
(truncated at zero): a key occurring `k ≥ 2` times is flagged exactly
`k - 1` times — once for the second occurrence, once for the third, and
so on. -/
theorem C7_double_spend_count (v : VerifyFn) (pool : UTXOPool)
    (tx : Transaction) (s : String) :
    countKindMsg .DOUBLE_SPENDING (dsMsg s)
        (validateTransaction v pool tx).errors =
      (tx.inputs.map inputKey).count s - 1 :=
  countKindMsg_validate_ds v pool tx s

/-- C8: the canonical signing payload depends only on the transaction id,
the inputs reduced to `{utxoId, owner}`, the outputs and the timestamp —
two transactions agreeing on those but differing arbitrarily in signature
contents produce identical payload strings. -/
theorem C8_payload_determinism (tx1 tx2 : Transaction)
    (hid : tx1.id = tx2.id)
    (hin : tx1.inputs.map (fun i => (i.utxoId, i.owner)) =
      tx2.inputs.map (fun i => (i.utxoId, i.owner)))
    (hout : tx1.outputs = tx2.outputs)
    (hts : tx1.timestamp = tx2.timestamp) :
    createTransactionDataForSigning tx1 = createTransactionDataForSigning tx2 := by
  have hmap : tx1.inputs.map jsonUnsignedInput = tx2.inputs.map jsonUnsignedInput := by
    have h1 : ∀ l : List TransactionInput, l.map jsonUnsignedInput =
        (l.map (fun i => (i.utxoId, i.owner))).map
          (fun p => "\x7b\"utxoId\":" ++ jsonUTXOId p.1 ++ ",\"owner\":" ++
            jsonString p.2 ++ "\x7d") := by
      intro l
      rw [List.map_map]
      rfl
    rw [h1, h1, hin]
  unfold createTransactionDataForSigning
  rw [hid, hout, hts, hmap]

/-- C8 witness: the two concrete transactions `txSigA` and `txSigB`,
identical except for the signature bytes, have byte-identical signing
payloads. -/
theorem C8_payload_determinism_wit :
    createTransactionDataForSigning txSigA = createTransactionDataForSigning txSigB :=
  C8_payload_determinism txSigA txSigB rfl rfl rfl rfl

/-- C9: `validateTransaction` is a pure function of the transaction and
the pool snapshot — the embedding is state-free because the source only
reads (`getUTXO` lookups) and never writes, so two calls against
extensionally equal snapshots of the pool return identical
`ValidationResult`s, and neither the transaction nor the pool changes. -/
theorem C9_pure_function (v : VerifyFn) (p1 p2 : UTXOPool) (tx : Transaction)
    (h : ∀ t i, p1 t i = p2 t i) :
    validateTransaction v p1 tx = validateTransaction v p2 tx := by
  have hp : p1 = p2 := funext fun t => funext fun i => h t i
  rw [hp]

/-- C9 witness: the theorem applied to the concrete snapshot `poolK` and
transaction `txGood`. -/
theorem C9_pure_function_wit :
    validateTransaction vTrue poolK txGood = validateTransaction vTrue poolK txGood :=
  C9_pure_function vTrue poolK poolK txGood (fun _ _ => rfl)

/-- C10: double-spend detection within a transaction is oblivious to the
pool: when a key `s` occurs at least twice among the inputs and every
input carrying `s` fails to resolve, the result still contains at least
one `DOUBLE_SPENDING` error referencing `s`, and each occurrence of `s`
additionally draws its own `UTXO_NOT_FOUND` referencing `s`. -/
theorem C10_pool_independent_double_spend (v : VerifyFn) (pool : UTXOPool)
    (tx : Transaction) (s : String)
    (hrep : 2 ≤ (tx.inputs.map inputKey).count s)
    (habs : ∀ i ∈ tx.inputs, inputKey i = s → lookupUTXO pool i = none) :
    1 ≤ countKindMsg .DOUBLE_SPENDING (dsMsg s)
          (validateTransaction v pool tx).errors ∧
    countKindMsg .UTXO_NOT_FOUND (unfMsg s)
        (validateTransaction v pool tx).errors =
      (tx.inputs.map inputKey).count s := by
  constructor
  · rw [countKindMsg_validate_ds]
    omega
  · rw [countKindMsg_validate_unf]
    have hmap : (tx.inputs.map inputKey).count s =
        tx.inputs.countP (fun i => inputKey i == s) := by
      rw [List.count_eq_countP, List.countP_map]
      rfl
    rw [hmap]
    apply List.countP_congr
    intro i hi
    constructor
    · intro hb
      simp only [Bool.and_eq_true, beq_iff_eq] at hb ⊢
      exact hb.1
    · intro hb
      simp only [beq_iff_eq] at hb
      simp [hb, unresolvedB, habs i hi hb]

/-- C10 witness: the theorem applied to `txDup`, whose two inputs both
carry the unresolved key `a:0` over the empty pool. -/
theorem C10_pool_independent_double_spend_wit :
    1 ≤ countKindMsg .DOUBLE_SPENDING (dsMsg "a:0")
          (validateTransaction vTrue poolEmpty txDup).errors ∧
    countKindMsg .UTXO_NOT_FOUND (unfMsg "a:0")
        (validateTransaction vTrue poolEmpty txDup).errors =
      (txDup.inputs.map inputKey).count "a:0" :=
  C10_pool_independent_double_spend vTrue poolEmpty txDup "a:0"
    (by decide) (by decide)
